import Mathlib

/-
Verification of the minikey-fw matrix-to-report pipeline.

The embedding follows src/src/main.rs and src/src/keypad.rs. Hardware
effects (GPIO writes, delays, USB report pushes) are recorded as an
explicit event trace; the main loop's mutable state is passed explicitly.
-/

namespace Minikey

/-- Modelled from the spec: the file keycode.rs (declared by `mod keycode;` in
main.rs) is not among the sources; the spec describes the Keycode Table as an
enumeration mapping logical key identifiers to the standard HID usage-ID byte
values. Only the keycodes named by the sources and the spec are needed. -/
inductive KeyCode where
  | A
  | B
  | N
  | P
  | LEFTCTRL
deriving DecidableEq, Repr

/-- Modelled from the spec: the standard HID usage-ID byte value of each
keycode (the `key as u8` cast in send_press). -/
def keyCodeByte : KeyCode → Nat
  | KeyCode.A => 4
  | KeyCode.B => 5
  | KeyCode.N => 17
  | KeyCode.P => 19
  | KeyCode.LEFTCTRL => 224

/-- main.rs: `const USB_POLLING_RATE_MS: u8 = 10;` -/
def USB_POLLING_RATE_MS : Nat := 10

/-- main.rs: `const MATRIX_SCAN_US: u32 = 10;` -/
def MATRIX_SCAN_US : Nat := 10

/-- main.rs: `const ROWS: usize = 4;` -/
def ROWS : Nat := 4

/-- main.rs: `const COLS: usize = 4;` -/
def COLS : Nat := 4

/-- usbd_hid KeyboardReport: modifier, reserved, leds bytes and six keycode
slots. Bytes are modelled as Nat; `keycodes` is the six-slot list. -/
structure KeyboardReport where
  modifier : Nat
  reserved : Nat
  leds : Nat
  keycodes : List Nat
deriving DecidableEq, Repr

/-- One observable hardware effect of the firmware: a USB report push, a
delay, a column line write, a row line sample, or an LED write. -/
inductive Event where
  | push (r : KeyboardReport)
  | delayMs (n : Nat)
  | delayUs (n : Nat)
  | colHigh (c : Nat)
  | colLow (c : Nat)
  | sample (c r : Nat) (v : Bool)
  | ledHigh
  | ledLow
deriving DecidableEq, Repr

/-- keypad.rs: `pub type Press = &'static [KeyCode];` -/
abbrev Press := List KeyCode

/-- keypad.rs: `pub type Macro = &'static [Press];` -/
abbrev MacroSeq := List Press

/-- keypad.rs: `pub type MacroMatrix = &'static [Macro];` -/
abbrev MacroMatrix := List MacroSeq

/-- keypad.rs: `pub const TMUX_LEAD: Press = &[KeyCode::LEFTCTRL, KeyCode::B];` -/
def TMUX_LEAD : Press := [KeyCode.LEFTCTRL, KeyCode.B]

/-- keypad.rs: `pub const TMUX_NEXT: Press = &[KeyCode::N];` -/
def TMUX_NEXT : Press := [KeyCode.N]

/-- keypad.rs: `pub const TMUX_PREV: Press = &[KeyCode::P];` -/
def TMUX_PREV : Press := [KeyCode.P]

/-- keypad.rs: `pub const TMUX_NEXT_MACRO: Macro = &[TMUX_LEAD, TMUX_NEXT];` -/
def TMUX_NEXT_SEQ : MacroSeq := [TMUX_LEAD, TMUX_NEXT]

/-- keypad.rs: `pub const TMUX_PREV_MACRO: Macro = &[TMUX_LEAD, TMUX_PREV];` -/
def TMUX_PREV_SEQ : MacroSeq := [TMUX_LEAD, TMUX_PREV]

/-- keypad.rs, lines 28-33: the macro matrix; only the first two entries are
present, the rest of the 4x4 layout is commented out. Entry at flat
(column-major) index i is the binding of the i-th key position. -/
def MACRO_MATRIX : MacroMatrix := [TMUX_PREV_SEQ, TMUX_NEXT_SEQ]

/-- The all-zero keyboard report built at the top of send_press. -/
def zeroReport : KeyboardReport :=
  { modifier := 0, reserved := 0, leds := 0, keycodes := List.replicate 6 0 }

/-- A report whose first keycode slot holds byte `b` and whose other slots,
modifier, reserved and leds bytes are zero. -/
def reportWithByte (b : Nat) : KeyboardReport :=
  { modifier := 0, reserved := 0, leds := 0,
    keycodes := (List.replicate 6 0).set 0 b }

/-- main.rs, send_press (lines 40-55): build an all-zero report, put the key
byte in slot 0, push, delay one polling interval, zero slot 0 again, push,
delay one polling interval. -/
def send_press (key : KeyCode) : List Event :=
  let report0 : KeyboardReport :=
    { modifier := 0, reserved := 0, leds := 0, keycodes := List.replicate 6 0 }
  let report1 := { report0 with keycodes := report0.keycodes.set 0 (keyCodeByte key) }
  let report2 := { report1 with keycodes := report1.keycodes.set 0 0 }
  [Event.push report1, Event.delayMs USB_POLLING_RATE_MS,
   Event.push report2, Event.delayMs USB_POLLING_RATE_MS]

/-- Physical column-drive state: one level per column line, all initially
low. `rowRead w r` is the level InputPin::is_high reports on row r while the
column lines stand at `w`. -/
def allLow : List Bool := List.replicate COLS false

/-- main.rs, scan_matrix inner body for one column c: drive the line high,
settle, sample each row in order, drive the line low, settle. Returns the
sampled column of the snapshot, the new drive state and the event trace. -/
def scan_one_col (rowRead : List Bool → Nat → Bool) (w : List Bool) (c : Nat) :
    List Bool × List Bool × List Event :=
  let w1 := w.set c true
  let samples := (List.range ROWS).map (fun r => rowRead w1 r)
  let w2 := w1.set c false
  (samples, w2,
    Event.colHigh c :: Event.delayUs MATRIX_SCAN_US ::
      ((List.range ROWS).map (fun r => Event.sample c r (rowRead w1 r)) ++
       [Event.colLow c, Event.delayUs MATRIX_SCAN_US]))

/-- main.rs, scan_matrix column loop: process the given column indices in
order, threading the drive state. -/
def scan_cols (rowRead : List Bool → Nat → Bool) :
    List Bool → List Nat → List (List Bool) × List Bool × List Event
  | w, [] => ([], w, [])
  | w, c :: rest =>
    let out := scan_one_col rowRead w c
    let outRest := scan_cols rowRead out.2.1 rest
    (out.1 :: outRest.1, outRest.2.1, out.2.2 ++ outRest.2.2)

/-- main.rs, scan_matrix (lines 57-77): scan every column starting from all
lines low; returns the snapshot (indexed snapshot[c][r]) and event trace. -/
def scan_matrix (rowRead : List Bool → Nat → Bool) :
    List (List Bool) × List Event :=
  let out := scan_cols rowRead allLow (List.range COLS)
  (out.1, out.2.2)

/-- The mutable state of the main loop: the LED level and the single shared
`state` boolean declared before the loop (main.rs lines 150-151). -/
structure LoopState where
  led : Bool
  state : Bool
deriving DecidableEq, Repr

/-- main.rs, loop body for one matrix cell (lines 160-172): remember the
shared state, overwrite it with the cell value, then match on the pair:
a false-to-true edge raises the LED and runs send_press with KeyCode::A, a
true-to-false edge lowers the LED, anything else does nothing. -/
def step_cell (st : LoopState) (cell : Bool) : LoopState × List Event :=
  let previous_state := st.state
  let st1 : LoopState := { st with state := cell }
  match previous_state, cell with
  | false, true => ({ st1 with led := true }, Event.ledHigh :: send_press KeyCode.A)
  | true, false => ({ st1 with led := false }, [Event.ledLow])
  | _, _ => (st1, [])

/-- main.rs, the nested for loops over the scanned matrix, flattened to the
column-major cell order the code visits. -/
def process_cells : LoopState → List Bool → LoopState × List Event
  | st, [] => (st, [])
  | st, cell :: rest =>
    let out := step_cell st cell
    let outRest := process_cells out.1 rest
    (outRest.1, out.2 ++ outRest.2)

/-- One iteration of the main loop over a given snapshot: visit the cells
column by column, row by row (main.rs lines 158-174). -/
def loop_cycle (st : LoopState) (m : List (List Bool)) : LoopState × List Event :=
  process_cells st m.flatten

/-- Several consecutive main-loop iterations, one snapshot per scan cycle. -/
def run_cycles : LoopState → List (List (List Bool)) → LoopState × List Event
  | st, [] => (st, [])
  | st, m :: rest =>
    let out := loop_cycle st m
    let outRest := run_cycles out.1 rest
    (outRest.1, out.2 ++ outRest.2)

/-- The reports pushed to the USB transport within an event trace. -/
def pushedReports : List Event → List KeyboardReport
  | [] => []
  | Event.push r :: rest => r :: pushedReports rest
  | _ :: rest => pushedReports rest

/-- A key-edge transition classification. -/
inductive Transition where
  | Pressed
  | Released
  | NoChange
deriving DecidableEq, Repr

/-- The classification the match in the loop body performs on the pair
(previous_state, *row). -/
def classify (prev cur : Bool) : Transition :=
  match prev, cur with
  | false, true => Transition.Pressed
  | true, false => Transition.Released
  | _, _ => Transition.NoChange

/-- The sequence of classifications the code performs over one cycle's cell
list: each cell is compared against the single shared boolean, which at that
point holds the previous cell's value (main.rs lines 160-163). -/
def classifications : Bool → List Bool → List Transition
  | _, [] => []
  | s, c :: rest => classify s c :: classifications c rest

/-- The value of the shared `state` boolean after the loop has visited the
given cells, starting from s. -/
def trackState : Bool → List Bool → Bool
  | s, [] => s
  | _, c :: rest => trackState c rest

/-- The per-cycle classification lists across several cycles, threading the
shared boolean between cycles as the code does. -/
def classifications_cycles : Bool → List (List (List Bool)) → List (List Transition)
  | _, [] => []
  | s, m :: rest =>
    classifications s m.flatten :: classifications_cycles (trackState s m.flatten) rest

/-- Follows the spec's words, for comparison with `classifications`: a
per-key transition tracker compares every key position's new snapshot value
against that position's own previous-cycle value. -/
def trackerSpecClassifications (prevSnap newSnap : List Bool) : List Transition :=
  List.zipWith classify prevSnap newSnap

/-- The column-drive state in which exactly the line of column c is high,
reached between the set_high and set_low calls of that column's iteration. -/
def onlyCol (c : Nat) : List Bool := allLow.set c true

/-- embedded_hal: the pin error type of every GPIO line in main.rs is
`core::convert::Infallible`, a type with no values. -/
abbrev Infallible := Empty

/-- The fallible USB transport of send_press: pushing report r as the n-th
push either succeeds, extending the list of reports emitted so far, or
fails; `hid.push_input(&report).unwrap()` turns a failure into a panic,
modelled as Except.error carrying the reports emitted before the panic. -/
def pushReport (pushOk : Nat → Bool) (n : Nat) (r : KeyboardReport)
    (emitted : List KeyboardReport) :
    Except (List KeyboardReport) (List KeyboardReport) :=
  if pushOk n then Except.ok (emitted ++ [r]) else Except.error emitted

/-- send_press over the fallible transport: the second push is attempted
only if the first one's unwrap did not panic. -/
def send_press_tr (key : KeyCode) (pushOk : Nat → Bool) :
    Except (List KeyboardReport) (List KeyboardReport) :=
  (pushReport pushOk 0 (reportWithByte (keyCodeByte key)) []).bind
    (fun e => pushReport pushOk 1 zeroReport e)

/-- A 4x4 snapshot in which only position (0,0) is pressed. -/
def pressAt00 : List (List Bool) :=
  [[true, false, false, false], List.replicate 4 false,
   List.replicate 4 false, List.replicate 4 false]

/-- A 4x4 snapshot in which only position (0,2) is pressed. -/
def pressAt02 : List (List Bool) :=
  [[false, false, true, false], List.replicate 4 false,
   List.replicate 4 false, List.replicate 4 false]

/-- The all-released 4x4 snapshot. -/
def allFalseSnap : List (List Bool) := List.replicate 4 (List.replicate 4 false)

/-! Helper lemmas shared by the claims. -/

/-- The cell handler's branch is determined by `classify` applied to the
shared boolean and the cell value, and the shared boolean is always
overwritten with the cell value. -/
theorem step_cell_eq_classify (st : LoopState) (cell : Bool) :
    (step_cell st cell).2 =
      (match classify st.state cell with
       | Transition.Pressed => Event.ledHigh :: send_press KeyCode.A
       | Transition.Released => [Event.ledLow]
       | Transition.NoChange => []) ∧
    (step_cell st cell).1.state = cell := by
  obtain ⟨led, s⟩ := st
  cases s <;> cases cell <;> exact ⟨rfl, rfl⟩

/-- The shared boolean after a cycle is `trackState` of the visited cells. -/
theorem process_cells_state (cells : List Bool) :
    ∀ st : LoopState, (process_cells st cells).1.state = trackState st.state cells := by
  induction cells with
  | nil => intro st; rfl
  | cons c rest ih =>
    intro st
    have hstep : (step_cell st c).1.state = c := (step_cell_eq_classify st c).2
    simp only [process_cells, trackState]
    rw [ih, hstep]

theorem pushedReports_append (a b : List Event) :
    pushedReports (a ++ b) = pushedReports a ++ pushedReports b := by
  induction a with
  | nil => rfl
  | cons e rest ih => cases e <;> simp [pushedReports, ih]

/-- Any report a cell step pushes is the KeyCode::A press report or the
all-zero release report. -/
theorem pushedReports_step_cell (st : LoopState) (cell : Bool) :
    pushedReports (step_cell st cell).2 = [] ∨
    pushedReports (step_cell st cell).2 =
      [reportWithByte (keyCodeByte KeyCode.A), zeroReport] := by
  obtain ⟨led, s⟩ := st
  cases s <;> cases cell
  · exact Or.inl rfl
  · exact Or.inr rfl
  · exact Or.inl rfl
  · exact Or.inl rfl

theorem mem_pushedReports_process_cells (cells : List Bool) :
    ∀ (st : LoopState) (rep : KeyboardReport),
      rep ∈ pushedReports (process_cells st cells).2 →
      rep = reportWithByte (keyCodeByte KeyCode.A) ∨ rep = zeroReport := by
  induction cells with
  | nil => intro st rep h; exact absurd h (List.not_mem_nil rep)
  | cons c rest ih =>
    intro st rep h
    simp only [process_cells] at h
    rw [pushedReports_append, List.mem_append] at h
    rcases h with h | h
    · rcases pushedReports_step_cell st c with he | he <;> rw [he] at h
      · exact absurd h (List.not_mem_nil rep)
      · rcases h with _ | ⟨_, h⟩
        · exact Or.inl rfl
        · rcases h with _ | ⟨_, h⟩
          · exact Or.inr rfl
          · exact absurd h (List.not_mem_nil rep)
    · exact ih (step_cell st c).1 rep h

theorem mem_pushedReports_run_cycles (snaps : List (List (List Bool))) :
    ∀ (st : LoopState) (rep : KeyboardReport),
      rep ∈ pushedReports (run_cycles st snaps).2 →
      rep = reportWithByte (keyCodeByte KeyCode.A) ∨ rep = zeroReport := by
  induction snaps with
  | nil => intro st rep h; exact absurd h (List.not_mem_nil rep)
  | cons m rest ih =>
    intro st rep h
    simp only [run_cycles] at h
    rw [pushedReports_append, List.mem_append] at h
    rcases h with h | h
    · exact mem_pushedReports_process_cells m.flatten st rep h
    · exact ih (loop_cycle st m).1 rep h

theorem set_replicate_false : ∀ (n c : Nat),
    (List.replicate n false).set c false = List.replicate n false
  | 0, _ => rfl
  | _ + 1, 0 => rfl
  | n + 1, c + 1 => congrArg (List.cons false) (set_replicate_false n c)

/-- Scanning a list of column indices from the all-low drive state: each
column's samples are taken with exactly that column high, the drive state
returns to all-low after every column, and the trace is the concatenation
of the per-column drive/settle/sample/settle blocks. -/
theorem scan_cols_allLow (rowRead : List Bool → Nat → Bool) :
    ∀ cs : List Nat,
      scan_cols rowRead allLow cs =
        (cs.map (fun c => (List.range ROWS).map (fun r => rowRead (onlyCol c) r)),
         allLow,
         cs.flatMap (fun c =>
           Event.colHigh c :: Event.delayUs MATRIX_SCAN_US ::
             ((List.range ROWS).map
                (fun r => Event.sample c r (rowRead (onlyCol c) r)) ++
              [Event.colLow c, Event.delayUs MATRIX_SCAN_US]))) := by
  intro cs
  induction cs with
  | nil => rfl
  | cons c rest ih =>
    have hw2 : (allLow.set c true).set c false = allLow := by
      rw [List.set_set]
      exact set_replicate_false COLS c
    simp only [scan_cols, scan_one_col, onlyCol, hw2, ih, List.map_cons,
      List.flatMap_cons]

/-! The claims. -/

/-- C1: the claim says a Pressed edge at a key position bound in
MACRO_MATRIX to an N-chord macro yields 2N reports carrying the chords in
order. Evaluating the code at the failing input: position (0,0) is bound to
the 2-chord sequence [[LEFTCTRL, B], [P]], yet its Pressed edge emits
exactly two reports — a KeyCode::A press and an all-zero release — because
the loop body never consults MACRO_MATRIX. -/
theorem C1_code_at_failing_input :
    MACRO_MATRIX.getD 0 [] = [[KeyCode.LEFTCTRL, KeyCode.B], [KeyCode.P]] ∧
    pushedReports (loop_cycle ⟨false, false⟩ pressAt00).2 =
      [reportWithByte (keyCodeByte KeyCode.A), zeroReport] ∧
    (pushedReports (loop_cycle ⟨false, false⟩ pressAt00).2).length ≠
      2 * (MACRO_MATRIX.getD 0 []).length := by
  decide

/-- C2: the claim says a transition at a position with no MACRO_MATRIX
binding emits nothing. Evaluating the code at the failing input: position
(0,2) (flat index 2, beyond the two bound entries) exists in the 4x4 matrix
and has no binding, yet its Pressed edge emits two reports. -/
theorem C2_code_at_failing_input :
    2 < COLS * ROWS ∧ MACRO_MATRIX.length = 2 ∧
    pushedReports (loop_cycle ⟨false, false⟩ pressAt02).2 =
      [reportWithByte (keyCodeByte KeyCode.A), zeroReport] := by
  decide

/-- C3: the claim says the tracker stores one previous-cycle boolean per key
position and classifies each position against its own stored value.
Evaluating the code at the failing input: with every key released on the
previous cycle and only (0,0) pressed now, the single shared boolean makes
the code classify position (0,1) as Released, while a per-key comparison of
(0,1) against its own previous value gives NoChange. -/
theorem C3_code_at_failing_input :
    classifications false pressAt00.flatten ≠
      trackerSpecClassifications (List.replicate 16 false) pressAt00.flatten ∧
    (classifications false pressAt00.flatten).getD 1 Transition.NoChange =
      Transition.Released ∧
    (trackerSpecClassifications (List.replicate 16 false)
        pressAt00.flatten).getD 1 Transition.NoChange = Transition.NoChange := by
  decide

/-- C4: the claim says a key held across consecutive scans emits reports
only once, on the first Pressed edge. Evaluating the code at the failing
input: holding (0,0) for two cycles emits four reports — the shared boolean
falls back to false while the loop passes the released cells, so the held
key re-triggers a fresh Pressed edge every cycle. -/
theorem C4_code_at_failing_input :
    (pushedReports (run_cycles ⟨false, false⟩ [pressAt00]).2).length = 2 ∧
    (pushedReports (run_cycles ⟨false, false⟩ [pressAt00, pressAt00]).2).length
      = 4 := by
  decide

/-- C5: the claim says a snapshot with only (c,r) pressed followed by an
all-false snapshot drives exactly one Pressed and one Released at (c,r) and
none elsewhere. Evaluating the code at the failing input c = 0, r = 0: the
first cycle classifies flat index 0 as Pressed and flat index 1 — position
(0,1) — as Released, and the all-false second cycle is all NoChange, so the
Released never occurs at (0,0) and does occur at another position. -/
theorem C5_code_at_failing_input :
    classifications_cycles false [pressAt00, allFalseSnap] =
      [Transition.Pressed :: Transition.Released ::
         List.replicate 14 Transition.NoChange,
       List.replicate 16 Transition.NoChange] := by
  decide

/-- C6: a Pressed edge resolved to a single keycode emits exactly two
reports — first the press report with the keycode in slot 0 and every other
byte zero, then the all-zero release report — with one USB polling interval
(10 ms) delay between the two pushes. -/
theorem C6_single_keycode_two_reports (k : KeyCode) :
    send_press k =
      [Event.push (reportWithByte (keyCodeByte k)),
       Event.delayMs USB_POLLING_RATE_MS,
       Event.push zeroReport, Event.delayMs USB_POLLING_RATE_MS] ∧
    pushedReports (send_press k) = [reportWithByte (keyCodeByte k), zeroReport] ∧
    (reportWithByte (keyCodeByte k)).keycodes =
      keyCodeByte k :: List.replicate 5 0 ∧
    zeroReport.keycodes = List.replicate 6 0 ∧
    USB_POLLING_RATE_MS = 10 :=
  ⟨rfl, rfl, rfl, rfl, rfl⟩

/-- C7: the scanner processes columns strictly one at a time in index
order — drive high, settle delay, sample every row in order, drive low,
settle delay — and snapshot[c][r] is exactly the level read on row r while
only column c was driven. -/
theorem C7_scan_matrix_correct (rowRead : List Bool → Nat → Bool) (c r : Nat)
    (hc : c < COLS) (hr : r < ROWS) :
    (scan_matrix rowRead).2 =
      (List.range COLS).flatMap (fun i =>
        Event.colHigh i :: Event.delayUs MATRIX_SCAN_US ::
          ((List.range ROWS).map
             (fun j => Event.sample i j (rowRead (onlyCol i) j)) ++
           [Event.colLow i, Event.delayUs MATRIX_SCAN_US])) ∧
    ((scan_matrix rowRead).1.getD c []).getD r false = rowRead (onlyCol c) r := by
  constructor
  · show (scan_cols rowRead allLow (List.range COLS)).2.2 = _
    rw [scan_cols_allLow]
  · show ((scan_cols rowRead allLow (List.range COLS)).1.getD c []).getD r false = _
    rw [scan_cols_allLow]
    have hc4 : c < 4 := hc
    have hr4 : r < 4 := hr
    interval_cases c <;> interval_cases r <;> rfl

/-- C7 witness: with a row function that reads high on row 1 exactly while
column 0 is driven, the returned snapshot holds true at [0][1]. -/
theorem C7_scan_matrix_correct_witness :
    0 < COLS ∧ 1 < ROWS ∧
    ((scan_matrix (fun w r => w.getD 0 false && decide (r = 1))).1.getD 0
        []).getD 1 false = true := by
  refine ⟨by decide, by decide, ?_⟩
  have h := (C7_scan_matrix_correct (fun w r => w.getD 0 false && decide (r = 1))
    0 1 (by decide) (by decide)).2
  rw [h]
  decide

/-- C8: hardware I/O failure is fatal. The GPIO pin error type is
Infallible, so a line read can only ever return Ok; a USB push failure
makes the unwrap panic: the computation aborts as Except.error, the second
push is never attempted, and no report is emitted after the failure — there
is no recovery or retry path. -/
theorem C8_io_failure_fatal :
    (∀ res : Except Infallible Bool, ∃ b, res = Except.ok b) ∧
    (∀ (k : KeyCode) (pushOk : Nat → Bool), pushOk 0 = false →
        send_press_tr k pushOk = Except.error []) ∧
    (∀ (k : KeyCode) (pushOk : Nat → Bool), pushOk 0 = true → pushOk 1 = false →
        send_press_tr k pushOk =
          Except.error [reportWithByte (keyCodeByte k)]) ∧
    (∀ (k : KeyCode) (pushOk : Nat → Bool), pushOk 0 = true → pushOk 1 = true →
        send_press_tr k pushOk =
          Except.ok [reportWithByte (keyCodeByte k), zeroReport]) := by
  refine ⟨?_, ?_, ?_, ?_⟩
  · intro res
    cases res with
    | error e => exact e.elim
    | ok b => exact ⟨b, rfl⟩
  · intro k pushOk h0
    simp [send_press_tr, pushReport, h0, Except.bind]
  · intro k pushOk h0 h1
    simp [send_press_tr, pushReport, h0, h1, Except.bind]
  · intro k pushOk h0 h1
    simp [send_press_tr, pushReport, h0, h1, Except.bind]

/-- C8 witness: a transport whose first push fails panics with no report
emitted. -/
theorem C8_io_failure_fatal_witness :
    ((fun _ : Nat => false) 0 = false) ∧
    send_press_tr KeyCode.A (fun _ => false) = Except.error [] :=
  ⟨rfl, C8_io_failure_fatal.2.1 KeyCode.A (fun _ => false) rfl⟩

/-- C9: a Released edge runs only the LED branch: the handler emits the
single LED-low event, pushes no report, and only updates the LED and the
shared boolean — the USB report stream is unchanged. This holds for every
key position, macro-bound ones included, since the handler ignores the
position. -/
theorem C9_release_edge_no_reports (st : LoopState) (h : st.state = true) :
    (step_cell st false).2 = [Event.ledLow] ∧
    pushedReports (step_cell st false).2 = [] ∧
    (step_cell st false).1 = { led := false, state := false } := by
  obtain ⟨led, s⟩ := st
  cases h
  exact ⟨rfl, rfl, rfl⟩

/-- C9 witness: the release edge from the lit, pressed state. -/
theorem C9_release_edge_no_reports_witness :
    (({ led := true, state := true } : LoopState).state = true) ∧
    (step_cell { led := true, state := true } false).2 = [Event.ledLow] ∧
    pushedReports (step_cell { led := true, state := true } false).2 = [] :=
  ⟨rfl,
   (C9_release_edge_no_reports { led := true, state := true } rfl).1,
   (C9_release_edge_no_reports { led := true, state := true } rfl).2.1⟩

/-- C10: every report the firmware ever pushes, over any sequence of scan
cycles from any loop state, has modifier, reserved and LED bytes zero and
keycode slots 1 through 5 zero; only slot 0 can be non-zero. -/
theorem C10_report_shape (st : LoopState) (snaps : List (List (List Bool)))
    (rep : KeyboardReport)
    (h : rep ∈ pushedReports (run_cycles st snaps).2) :
    rep.modifier = 0 ∧ rep.reserved = 0 ∧ rep.leds = 0 ∧
    rep.keycodes.length = 6 ∧ rep.keycodes.drop 1 = List.replicate 5 0 := by
  rcases mem_pushedReports_run_cycles snaps st rep h with he | he <;>
    rw [he] <;> exact ⟨rfl, rfl, rfl, rfl, rfl⟩

/-- C10 witness: the KeyCode::A press report pushed by the cycle that
presses (0,0) has the claimed shape. -/
theorem C10_report_shape_witness :
    reportWithByte (keyCodeByte KeyCode.A) ∈
      pushedReports (run_cycles ⟨false, false⟩ [pressAt00]).2 ∧
    (reportWithByte (keyCodeByte KeyCode.A)).modifier = 0 ∧
    (reportWithByte (keyCodeByte KeyCode.A)).keycodes.drop 1 =
      List.replicate 5 0 := by
  have hmem : reportWithByte (keyCodeByte KeyCode.A) ∈
      pushedReports (run_cycles ⟨false, false⟩ [pressAt00]).2 := by decide
  have h := C10_report_shape ⟨false, false⟩ [pressAt00]
    (reportWithByte (keyCodeByte KeyCode.A)) hmem
  exact ⟨hmem, h.1, h.2.2.2.2⟩

end Minikey
